import Mathlib

/-
Verification of the UNO-R4 rust driver layer (CAN controller and UART),
as a shallow embedding in Lean.  Machine integers are modelled as Nat with
explicit masking where the source relies on fixed-width behaviour; a Rust
panic is modelled as the value none of an Option-typed result.
-/

set_option maxRecDepth 4000

namespace UnoR4

/-! ### CAN identifiers (embedded_can::Id) -/

/-- The public CAN identifier type: an 11 bit standard id or a 29 bit
extended id, carried as a raw Nat. -/
inductive Id where
| standard : Nat → Id
| extended : Nat → Id
deriving DecidableEq, Repr

/-! ### MailboxId: the 32 bit hardware mailbox identifier register.

Bitfield with Msb-first field order: IDE at bit 31, RTR at bit 30, one
reserved bit at 29, SID in bits 28..18 (11 bits), EID in bits 17..0
(18 bits).  A MailboxId value is the raw register Nat (a u32). -/

namespace MailboxId

def new : Nat := 0

def IDE (m : Nat) : Bool := m.testBit 31

def RTR (m : Nat) : Bool := m.testBit 30

def SID (m : Nat) : Nat := (m >>> 18) % 2048

def EID (m : Nat) : Nat := m % 262144

def withIDE (m : Nat) (b : Bool) : Nat :=
  (m &&& 0x7FFFFFFF) ||| (if b then 0x80000000 else 0)

def withSID (m v : Nat) : Nat :=
  (m &&& 0xE003FFFF) ||| ((v &&& 0x7FF) <<< 18)

def withEID (m v : Nat) : Nat :=
  (m &&& 0xFFFC0000) ||| (v &&& 0x3FFFF)

/-- MailboxId::is_extended: the IDE bit is set or the EID bits are nonzero. -/
def is_extended (m : Nat) : Bool := IDE m || EID m != 0

end MailboxId

/-- impl From&lt;Id&gt; for MailboxId.  For an extended id the source stores
as_raw() >> 11 (the upper 18 bits of the 29 bit raw id) in EID and
standard_id().as_raw() in SID, where ExtendedId::standard_id of the
embedded-can crate returns the Base ID, the upper 11 bits (raw >> 18). -/
def MailboxId.fromId : Id → Nat
| Id.standard sid => MailboxId.withSID MailboxId.new sid
| Id.extended raw =>
    let eid := raw >>> 11
    let sid := raw >>> 18
    MailboxId.withEID (MailboxId.withSID (MailboxId.withIDE MailboxId.new true) sid) eid

/-- impl From&lt;MailboxId&gt; for Id. -/
def MailboxId.toId (m : Nat) : Id :=
  let eid := MailboxId.EID m
  if MailboxId.IDE m || eid != 0 then
    Id.extended ((eid <<< 11) ||| MailboxId.SID m)
  else
    Id.standard (MailboxId.SID m)

/-! ### BitConfig: the Bit Configuration Register (BCR) layout.

Lsb-first fields: CCLKS bit 0, reserved 1..7, TSEG2 bits 8..10, reserved 11,
SJW bits 12..13, reserved 14..15, BRP bits 16..25, reserved 26..27,
TSEG1 bits 28..31. -/

namespace BitConfig

def new : Nat := 0

def withCCLKS (m : Nat) (b : Bool) : Nat :=
  (m &&& 0xFFFFFFFE) ||| (if b then 1 else 0)

def withTSEG2 (m v : Nat) : Nat :=
  (m &&& 0xFFFFF8FF) ||| ((v &&& 0x7) <<< 8)

def withSJW (m v : Nat) : Nat :=
  (m &&& 0xFFFFCFFF) ||| ((v &&& 0x3) <<< 12)

def withBRP (m v : Nat) : Nat :=
  (m &&& 0xFC00FFFF) ||| ((v &&& 0x3FF) <<< 16)

def withTSEG1 (m v : Nat) : Nat :=
  (m &&& 0x0FFFFFFF) ||| ((v &&& 0xF) <<< 28)

/-- BitConfig::new_checked: validate the raw parameters, then build the
register value.  Pure; no hardware access. -/
def new_checked (cclks : Bool) (brp_scale tseg1_tq tseg2_tq sjw_tq : Nat) : Option Nat :=
  if brp_scale > 1024 ∨ brp_scale = 0
      ∨ tseg1_tq < 4 ∨ tseg1_tq > 16
      ∨ tseg2_tq < 2 ∨ tseg2_tq > 8
      ∨ sjw_tq < 1 ∨ sjw_tq > 4 then
    none
  else
    some (withTSEG2
      (withTSEG1 (withSJW (withBRP (withCCLKS new cclks) (brp_scale - 1)) (sjw_tq - 1))
        (tseg1_tq - 1))
      (tseg2_tq - 1))

end BitConfig

/-! ### Mailbox configuration -/

/-- Receive mailbox configuration. -/
structure MailboxRxConfig where
  interrupt : Bool
  one_shot : Bool
  mask_valid : Bool
  id : Id
deriving DecidableEq, Repr

/-- Transmit mailbox configuration. -/
structure MailboxTxConfig where
  interrupt : Bool
  one_shot : Bool
deriving DecidableEq, Repr

/-- A mailbox is configured for transmission or reception. -/
inductive MailboxMode where
| tx : MailboxTxConfig → MailboxMode
| rx : MailboxRxConfig → MailboxMode
deriving DecidableEq, Repr

/-- MailboxMode::interrupt. -/
def MailboxMode.interrupt : MailboxMode → Bool
| .tx config => config.interrupt
| .rx config => config.interrupt

/-- Helper mirroring the body of the mkivlr loop: a bit is contributed only
by a receive mailbox whose mask_valid flag is false. -/
def MailboxMode.mask_invalid_bit : MailboxMode → Bool
| .tx _ => false
| .rx config => !config.mask_valid

/-- An acceptance mask. -/
structure Mask where
  id : Id
deriving DecidableEq, Repr

/-- Mask::accept_all. -/
def Mask.accept_all : Mask := ⟨Id.standard 0⟩

/-- Mask::mkr: the MKR register value, with the IDE bit removed. -/
def Mask.mkr (m : Mask) : Nat :=
  MailboxId.withIDE (MailboxId.fromId m.id) false

/-- MailboxConfig: 8 masks and 32 mailbox entries. -/
structure MailboxConfig where
  masks : Fin 8 → Mask
  mailboxes : Fin 32 → MailboxMode

/-- impl Default for MailboxConfig: accept-all masks, every mailbox a
transmit mailbox with interrupts off. -/
def MailboxConfig.mkDefault : MailboxConfig where
  masks := fun _ => Mask.accept_all
  mailboxes := fun _ => MailboxMode.tx ⟨false, false⟩

/-- MailboxConfig::set_mailbox_receiver. -/
def MailboxConfig.set_mailbox_receiver (c : MailboxConfig) (index : Nat) : MailboxConfig :=
  if h : index < 32 then
    { c with mailboxes := Function.update c.mailboxes ⟨index, h⟩ (MailboxMode.rx ⟨false, false, true, Id.standard 0⟩) }
  else c

/-- MailboxConfig::mier: fold the per-mailbox interrupt flags into a bit
vector, bit i for mailbox i. -/
def MailboxConfig.mier (c : MailboxConfig) : Nat :=
  (List.finRange 32).foldl
    (fun acc i => if (c.mailboxes i).interrupt then acc ||| (1 <<< i.val) else acc) 0

/-- MailboxConfig::mkivlr: fold the mask-invalid receive mailboxes into a
bit vector, bit i for mailbox i. -/
def MailboxConfig.mkivlr (c : MailboxConfig) : Nat :=
  (List.finRange 32).foldl
    (fun acc i => if (c.mailboxes i).mask_invalid_bit then acc ||| (1 <<< i.val) else acc) 0

/-! ### The CAN mailbox register file and the send / receive scans

The registers touched by send_frame and try_receive_frame, per mailbox:
the control register MCTL (the bits the driver reads or writes), the 32 bit
identifier register, the DLC register and the 8 data byte registers.
mctl_tx and mctl_rx of the source are two views of the same register. -/

/-- The mailbox control register bits used by the driver. -/
structure Mctl where
  trmreq : Bool
  recreq : Bool
  newdata : Bool
deriving DecidableEq, Repr

/-- The CAN peripheral register state visible to the two scans. -/
structure CanState where
  mctl : Nat → Mctl
  mbId : Nat → Nat
  mbDlc : Nat → Nat
  mbData : Nat → Nat → Nat

/-- A frame, laid out like the mailbox registers: 32 bit id, DLC, 8 data
bytes and a timestamp. -/
structure Frame where
  id : Nat
  dlc : Nat
  data : List Nat
  ts : Nat
deriving DecidableEq, Repr

/-- Rust slicing l[..n]: defined when n is at most the length, a panic
(modelled as none) otherwise. -/
def sliceTo (l : List Nat) (n : Nat) : Option (List Nat) :=
  if n ≤ l.length then some (l.take n) else none

/-- Frame::data: the slice self.data[..self.dlc]. -/
def Frame.dataBytes (f : Frame) : Option (List Nat) :=
  sliceTo f.data f.dlc

/-- The loop guard of try_receive_frame: new data present and the
transmit-request bit clear. -/
def rxCond (s : CanState) (i : Nat) : Bool :=
  (s.mctl i).newdata && !(s.mctl i).trmreq

/-- The loop guard of send_frame: both request bits clear. -/
def txCond (s : CanState) (i : Nat) : Bool :=
  !(s.mctl i).trmreq && !(s.mctl i).recreq

/-- The frame try_receive_frame assembles from mailbox i: the raw id
register, the DLC readback, the first dlc data bytes of the 8 byte array
(the rest zero) and a zero timestamp. -/
def rxFrameAt (s : CanState) (i : Nat) : Frame where
  id := s.mbId i
  dlc := s.mbDlc i
  data := (List.range 8).map (fun j => if j < s.mbDlc i then s.mbData i j else 0)
  ts := 0

/-- The body of try_receive_frame, scanning mailboxes i, i+1, ... for n
steps.  On a hit the control register is cleared, id, DLC and data are read
back, the receive-request bit is re-armed and the frame returned.  A DLC
readback above 8 makes the data copy loop slice out of bounds: a panic,
modelled as none. -/
def rxScanFrom (s : CanState) : Nat → Nat → Option (Option Frame × CanState)
| _, 0 => some (none, s)
| i, n + 1 =>
    if rxCond s i then
      let s1 : CanState := { s with mctl := Function.update s.mctl i ⟨false, false, false⟩ }
      let dlc := s1.mbDlc i
      if dlc ≤ 8 then
        let frame : Frame :=
          { id := s1.mbId i
            dlc := dlc
            data := (List.range 8).map (fun j => if j < dlc then s1.mbData i j else 0)
            ts := 0 }
        some (some frame, { s1 with mctl := Function.update s1.mctl i ⟨false, true, false⟩ })
      else none
    else rxScanFrom s (i + 1) n

/-- Can::try_receive_frame: scan all 32 mailboxes from index 0. -/
def try_receive_frame (s : CanState) : Option (Option Frame × CanState) :=
  rxScanFrom s 0 32

/-- The register image send_frame leaves in mailbox i: the encoded id, the
DLC, the dlc data bytes, and the transmit-request bit set (all other control
bits written to zero).  No other mailbox is touched. -/
def txFrameWrite (s : CanState) (i : Nat) (f : Frame) : CanState where
  mctl := Function.update s.mctl i ⟨true, false, false⟩
  mbId := Function.update s.mbId i f.id
  mbDlc := Function.update s.mbDlc i f.dlc
  mbData := Function.update s.mbData i
    (fun j => if j < (f.data.take f.dlc).length then (f.data.take f.dlc).getD j 0
      else s.mbData i j)

/-- The body of send_frame, scanning mailboxes i, i+1, ... for n steps for
the first idle one.  On a hit the frame is written through Frame::data,
whose slice panics (none) when dlc exceeds the 8 byte array. -/
def txScanFrom (f : Frame) (s : CanState) : Nat → Nat → Option (Bool × CanState)
| _, 0 => some (false, s)
| i, n + 1 =>
    if txCond s i then
      match sliceTo f.data f.dlc with
      | some bytes =>
          some (true,
            { mctl := Function.update s.mctl i ⟨true, false, false⟩
              mbId := Function.update s.mbId i f.id
              mbDlc := Function.update s.mbDlc i f.dlc
              mbData := Function.update s.mbData i
                (fun j => if j < bytes.length then bytes.getD j 0 else s.mbData i j) })
      | none => none
    else txScanFrom f s (i + 1) n

/-- Can::send_frame: scan all 32 mailboxes from index 0; Ok is true, the
error case is false. -/
def send_frame (f : Frame) (s : CanState) : Option (Bool × CanState) :=
  txScanFrom f s 0 32

/-- Concrete register state for the C2 counterexample: mailbox 0 has new
data with the transmit-request bit set and the receive-request bit clear,
mailbox 1 has new data with the transmit-request bit clear. -/
def c2CexState : CanState where
  mctl := fun i =>
    if i = 0 then ⟨true, false, true⟩
    else if i = 1 then ⟨false, true, true⟩
    else ⟨false, false, false⟩
  mbId := fun i => if i = 0 then 111 else if i = 1 then 222 else 0
  mbDlc := fun _ => 0
  mbData := fun _ _ => 0

/-- Concrete register state with every mailbox busy for transmission. -/
def txBusyState : CanState where
  mctl := fun _ => ⟨true, false, false⟩
  mbId := fun _ => 0
  mbDlc := fun _ => 0
  mbData := fun _ _ => 0

/-- Concrete armed receive state: mailbox 0 holds a 2 byte frame. -/
def rxWitnessState : CanState where
  mctl := fun i => if i = 0 then ⟨false, true, true⟩ else ⟨false, false, false⟩
  mbId := fun _ => 0x48C0000
  mbDlc := fun i => if i = 0 then 2 else 0
  mbData := fun _ j => j + 1

/-- Concrete receive state whose mailbox 0 DLC readback is 9. -/
def rxBadDlcState : CanState where
  mctl := fun i => if i = 0 then ⟨false, true, true⟩ else ⟨false, false, false⟩
  mbId := fun _ => 0
  mbDlc := fun i => if i = 0 then 9 else 0
  mbData := fun _ _ => 0

/-- A well-formed 2 byte frame. -/
def witnessFrame : Frame := ⟨0x48C0000, 2, [1, 2, 0, 0, 0, 0, 0, 0], 0⟩

/-- A frame whose DLC exceeds the 8 byte data array. -/
def badDlcFrame : Frame := ⟨0, 9, [0, 0, 0, 0, 0, 0, 0, 0], 0⟩

/-! ### The UART TX path

State visible to the TX side: the TXI pending flag in the interrupt
controller, the TX ring buffer, the transmit data register TDR and the SCR
bits TE, TIE and TEIE.  The ring buffer is the SPSC queue of the embassy
support crate, which the spec treats as an outside collaborator specified
by its contract; it is modelled as a capacity-bounded byte queue whose push
region is nonempty exactly when the buffer is not full. -/

/-- The SCR bits driven by the TX path. -/
structure Scr where
  te : Bool
  tie : Bool
  teie : Bool
deriving DecidableEq, Repr

/-- The UART driver state seen from the TX side. -/
structure UartState where
  pending : Bool
  cap : Nat
  txBuf : List Nat
  tdr : Nat
  scr : Scr
deriving DecidableEq, Repr

/-- Free space of the TX ring buffer. -/
def UartState.freeSpace (s : UartState) : Nat := s.cap - s.txBuf.length

/-- scr.modify(tie=1, teie=0, te=1): enable the transmitter and the
TX-empty interrupt. -/
def armTx (s : UartState) : UartState :=
  { s with scr := { te := true, tie := true, teie := false } }

/-- TXI_Handler::on_interrupt: clear the pending flag; if the TX buffer has
a byte, write it to TDR and advance the buffer, and if the buffer thereby
became empty switch the armed interrupts from TIE to TEIE; if the buffer
was already empty, disable the transmitter and both TX interrupt enables. -/
def txiHandler (s : UartState) : UartState :=
  let s0 := { s with pending := false }
  match s0.txBuf with
  | [] => { s0 with scr := { te := false, tie := false, teie := false } }
  | b :: rest =>
      let s1 := { s0 with tdr := b, txBuf := rest }
      if rest.isEmpty then { s1 with scr := { s1.scr with teie := true, tie := false } }
      else s1

/-- The inner wait loop of UartTx::write: when the final byte of the
previous transmission is still in flight (TE set, TEIE set), suspend on
wfi until the TEI handler has cleared TEIE and TE, then re-arm
transmission.  env gives the state after each wfi wakeup (the interference
of the interrupt handlers); fuel bounds the modelled iterations, with none
meaning the loop has not yet exited. -/
def teiWait (env : Nat → UartState → UartState) : Nat → Nat → UartState → Option UartState
| 0, _, _ => none
| fuel + 1, k, s =>
    let s1 := env k s
    if s1.scr.teie = false ∧ s1.scr.te = false then some (armTx s1)
    else teiWait env fuel (k + 1) s1

/-- UartTx::write: loop until the push region of the TX ring buffer is
nonempty; copy min(space, input length) bytes in; arm or re-arm the
transmitter according to TE and TEIE; on a full buffer make sure
transmission is started and suspend on wfi, re-checking after every
interrupt.  env is the interference applied at each wfi, fuel bounds the
modelled iterations (none: the call is still blocked). -/
def UartTx.write (env : Nat → UartState → UartState) (input : List Nat) :
    Nat → Nat → UartState → Option (Nat × UartState)
| 0, _, _ => none
| fuel + 1, k, s =>
    if s.freeSpace ≠ 0 then
      let len := min s.freeSpace input.length
      let s1 := { s with txBuf := s.txBuf ++ input.take len }
      if s1.scr.te = false then some (len, armTx s1)
      else if s1.scr.teie = true then
        match teiWait env fuel k s1 with
        | some s2 => some (len, s2)
        | none => none
      else some (len, s1)
    else
      let s1 := if s.scr.te = false then armTx s else s
      UartTx.write env input fuel (k + 1) (env k s1)

/-- Identity interference: no interrupt activity between wakeups. -/
def c8Env : Nat → UartState → UartState := fun _ t => t

/-- Concrete idle UART state with an empty 4 byte TX buffer. -/
def c8State : UartState := ⟨false, 4, [], 0, ⟨false, false, false⟩⟩

/-- Concrete UART state with one queued byte, armed, TXI pending. -/
def c7State : UartState := ⟨true, 4, [9], 7, ⟨true, true, false⟩⟩

/-! ## Theorems -/

/-! ### Identifier codec and bit timing (C1, C5, C4) -/

/-- Claim C1: encoding the standard identifier 0x123 to a MailboxId and back
yields the same standard identifier, and the MailboxId encoded from the
extended identifier 0x1ABCDE reports is_extended.  However decoding the
MailboxId encoded from Id::Extended(0x1ABCDE) yields Id::Extended(0x1AB806),
not the original identifier: the code stores the upper 18 bits of the raw id
in EID and the upper 11 bits in SID, so the low 11 bits of the id are lost
and the round trip fails.  This evaluates the code at the failing input. -/
theorem c1_extended_roundtrip_fails :
    MailboxId.toId (MailboxId.fromId (Id.standard 0x123)) = Id.standard 0x123 ∧
    MailboxId.is_extended (MailboxId.fromId (Id.extended 0x1ABCDE)) = true ∧
    MailboxId.toId (MailboxId.fromId (Id.extended 0x1ABCDE)) = Id.extended 0x1AB806 ∧
    Id.extended 0x1AB806 ≠ Id.extended 0x1ABCDE := by
  refine ⟨by decide, by decide, by decide, by decide⟩

/-- Claim C5: for every 32 bit mailbox identifier register value, decoding
produces an Extended identifier exactly when the IDE flag (bit 31) is set or
the 18 EID bits are nonzero; otherwise it produces a Standard identifier from
the 11 bit standard portion; and is_extended holds under the same
condition. -/
theorem c5_decode_extended_condition (m : Nat) (_hm : m < 4294967296) :
    ((∃ e, MailboxId.toId m = Id.extended e) ↔ (m.testBit 31 ∨ m % 262144 ≠ 0)) ∧
    (¬(m.testBit 31 ∨ m % 262144 ≠ 0) →
      MailboxId.toId m = Id.standard ((m >>> 18) % 2048)) ∧
    (MailboxId.is_extended m = true ↔ (m.testBit 31 ∨ m % 262144 ≠ 0)) := by
  clear _hm
  unfold MailboxId.toId MailboxId.is_extended MailboxId.IDE MailboxId.EID MailboxId.SID
  by_cases h1 : m.testBit 31 <;> by_cases h2 : m % 262144 = 0 <;>
    simp [h1, h2]

/-- Witness for C5 at the concrete register value 0x80000000. -/
theorem c5_decode_extended_condition_witness :
    (∃ e, MailboxId.toId 0x80000000 = Id.extended e) ∧
    MailboxId.is_extended 0x80000000 = true := by
  have h := c5_decode_extended_condition 0x80000000 (by decide)
  exact ⟨h.1.mpr (by decide), h.2.2.mpr (by decide)⟩

/-- Claim C4: BitConfig::new_checked succeeds exactly when the prescaler is
in 1..=1024, tseg1 in 4..=16, tseg2 in 2..=8 and sjw in 1..=4; it is a pure
function with no hardware side effects. -/
theorem c4_new_checked_ranges (cclks : Bool) (brp t1 t2 sjw : Nat) :
    (BitConfig.new_checked cclks brp t1 t2 sjw).isSome = true ↔
      (1 ≤ brp ∧ brp ≤ 1024 ∧ 4 ≤ t1 ∧ t1 ≤ 16 ∧ 2 ≤ t2 ∧ t2 ≤ 8 ∧
        1 ≤ sjw ∧ sjw ≤ 4) := by
  rw [BitConfig.new_checked]
  split <;> rename_i h <;> simp only [Option.isSome_some, Option.isSome_none] <;>
    constructor <;> intro hc
  · cases hc
  · omega
  · omega
  · trivial

/-- Witness for C4: (false, 3, 5, 2, 1) is accepted, while prescaler 0,
tseg1 3, tseg2 1 and sjw 5 are each rejected. -/
theorem c4_new_checked_ranges_witness :
    (BitConfig.new_checked false 3 5 2 1).isSome = true ∧
    (BitConfig.new_checked false 0 5 2 1).isSome = false ∧
    (BitConfig.new_checked false 3 3 2 1).isSome = false ∧
    (BitConfig.new_checked false 3 5 1 1).isSome = false ∧
    (BitConfig.new_checked false 3 5 2 5).isSome = false := by
  refine ⟨(c4_new_checked_ranges false 3 5 2 1).mpr (by omega), ?_, ?_, ?_, ?_⟩ <;>
  · rw [Bool.eq_false_iff]
    intro h
    have := (c4_new_checked_ranges _ _ _ _ _).mp h
    omega

/-! ### Mailbox configuration (C6, C10) -/

/-- Bit j of a fold that ors in bit i for every listed i satisfying p. -/
theorem orBitsFold_testBit (p : Fin 32 → Bool) (l : List (Fin 32)) (acc : Nat) (j : Nat) :
    ((l.foldl (fun a i => if p i then a ||| (1 <<< i.val) else a) acc).testBit j)
      = (acc.testBit j || l.any (fun i => p i && i.val == j)) := by
  induction l generalizing acc with
  | nil => simp
  | cons i t ih =>
    simp only [List.foldl_cons, List.any_cons]
    rw [ih]
    by_cases hp : p i
    · simp only [hp, if_pos, Nat.testBit_or, Nat.one_shiftLeft, Nat.testBit_two_pow,
        Bool.true_and]
      cases hij : (i.val == j) <;> cases hacc : acc.testBit j <;>
        simp_all [Bool.or_assoc, Bool.or_comm]
    · simp [hp]

/-- Over the full index list, the fold bit at j is exactly p j. -/
theorem finRange_any_bit (p : Fin 32 → Bool) (j : Fin 32) :
    ((List.finRange 32).any (fun i => p i && i.val == j.val)) = p j := by
  cases hpj : p j with
  | false =>
    rw [List.any_eq_false]
    intro i hi
    by_cases hij : i = j
    · subst hij; simp [hpj]
    · simp [Bool.and_eq_true]
      intro _
      exact fun hv => hij (Fin.ext hv)
  | true =>
    rw [List.any_eq_true]
    exact ⟨j, List.mem_finRange j, by simp [hpj]⟩

/-- Claim C6: for every MailboxConfig, mier has bit i set exactly when
mailbox i has its interrupt flag enabled (transmit or receive), and mkivlr
has bit i set exactly when mailbox i is a receive mailbox whose mask_valid
flag is false; a transmit mailbox never contributes a bit to mkivlr. -/
theorem c6_mier_mkivlr_bits (c : MailboxConfig) (j : Fin 32) :
    ((MailboxConfig.mier c).testBit j.val = (c.mailboxes j).interrupt) ∧
    ((MailboxConfig.mkivlr c).testBit j.val = true ↔
      ∃ config, c.mailboxes j = MailboxMode.rx config ∧ config.mask_valid = false) := by
  constructor
  · rw [MailboxConfig.mier, orBitsFold_testBit, finRange_any_bit]
    simp
  · rw [MailboxConfig.mkivlr, orBitsFold_testBit, finRange_any_bit]
    simp only [Nat.zero_testBit, Bool.false_or]
    cases hmb : c.mailboxes j with
    | tx config => simp [MailboxMode.mask_invalid_bit]
    | rx config =>
      simp only [MailboxMode.mask_invalid_bit, Bool.not_eq_true']
      constructor
      · intro hv
        exact ⟨config, rfl, hv⟩
      · rintro ⟨config2, heq, hv⟩
        cases heq
        exact hv

/-- Witness for C6 on the configuration with mailbox 0 set as receiver and
all others default: neither register has bit 0 set, since the receive role
is installed with interrupts off and a valid mask. -/
theorem c6_mier_mkivlr_bits_witness :
    (MailboxConfig.mier
      (MailboxConfig.set_mailbox_receiver MailboxConfig.mkDefault 0)).testBit 0 = false ∧
    (MailboxConfig.mkivlr
      (MailboxConfig.set_mailbox_receiver MailboxConfig.mkDefault 0)).testBit 0 = false := by
  have h := c6_mier_mkivlr_bits
    (MailboxConfig.set_mailbox_receiver MailboxConfig.mkDefault 0) ⟨0, by omega⟩
  constructor
  · exact h.1.trans (by decide)
  · rw [Bool.eq_false_iff]
    intro hb
    obtain ⟨config2, he, hv⟩ := h.2.mp hb
    rw [show (MailboxConfig.set_mailbox_receiver MailboxConfig.mkDefault 0).mailboxes
        ⟨0, by omega⟩ = MailboxMode.rx ⟨false, false, true, Id.standard 0⟩ from by decide] at he
    cases he
    cases hv

/-- Claim C10: set_mailbox_receiver with an index of at least 32 leaves the
whole configuration unchanged; for an index below 32 it overwrites exactly
that mailbox entry with a receive role (interrupt and one_shot off,
mask_valid on, standard id 0) and leaves every other mailbox entry and all
masks unchanged. -/
theorem c10_set_mailbox_receiver_frame (c : MailboxConfig) (index : Nat) :
    (32 ≤ index → MailboxConfig.set_mailbox_receiver c index = c) ∧
    (∀ h : index < 32,
      (MailboxConfig.set_mailbox_receiver c index).mailboxes ⟨index, h⟩
          = MailboxMode.rx ⟨false, false, true, Id.standard 0⟩ ∧
      (∀ j : Fin 32, j.val ≠ index →
        (MailboxConfig.set_mailbox_receiver c index).mailboxes j = c.mailboxes j) ∧
      (MailboxConfig.set_mailbox_receiver c index).masks = c.masks) := by
  constructor
  · intro hge
    rw [MailboxConfig.set_mailbox_receiver, dif_neg (by omega)]
  · intro h
    rw [MailboxConfig.set_mailbox_receiver, dif_pos h]
    refine ⟨Function.update_same _ _ _, ?_, rfl⟩
    intro j hj
    exact Function.update_noteq (fun he => hj (by rw [he])) _ _

/-- Witness for C10: on the default configuration, index 40 is a no-op and
index 3 sets exactly mailbox 3 to the default receive role. -/
theorem c10_set_mailbox_receiver_frame_witness :
    MailboxConfig.set_mailbox_receiver MailboxConfig.mkDefault 40 = MailboxConfig.mkDefault ∧
    (MailboxConfig.set_mailbox_receiver MailboxConfig.mkDefault 3).mailboxes ⟨3, by omega⟩
        = MailboxMode.rx ⟨false, false, true, Id.standard 0⟩ ∧
    (MailboxConfig.set_mailbox_receiver MailboxConfig.mkDefault 3).mailboxes ⟨7, by omega⟩
        = MailboxMode.tx ⟨false, false⟩ := by
  refine ⟨(c10_set_mailbox_receiver_frame MailboxConfig.mkDefault 40).1 (by omega),
    ((c10_set_mailbox_receiver_frame MailboxConfig.mkDefault 3).2 (by omega)).1,
    ?_⟩
  rw [((c10_set_mailbox_receiver_frame MailboxConfig.mkDefault 3).2 (by omega)).2.1
    ⟨7, by omega⟩ (by simp)]
  rfl

/-! ### The receive and transmit scans (C2, C3, C9) -/

/-- The receive guard is false exactly when new data is absent or the
transmit-request bit is set. -/
theorem rxCond_false_iff (s : CanState) (j : Nat) :
    rxCond s j = false ↔ ((s.mctl j).newdata = false ∨ (s.mctl j).trmreq = true) := by
  rw [rxCond]
  cases (s.mctl j).newdata <;> cases (s.mctl j).trmreq <;> simp

/-- The transmit guard is false exactly when one of the request bits is
set. -/
theorem txCond_false_iff (s : CanState) (j : Nat) :
    txCond s j = false ↔ ((s.mctl j).trmreq = true ∨ (s.mctl j).recreq = true) := by
  rw [txCond]
  cases (s.mctl j).trmreq <;> cases (s.mctl j).recreq <;> simp

/-- A receive scan over mailboxes that all fail the guard returns nothing
and leaves the state untouched. -/
theorem rxScanFrom_none (s : CanState) :
    ∀ n i, (∀ j, i ≤ j → j < i + n → rxCond s j = false) →
      rxScanFrom s i n = some (none, s) := by
  intro n
  induction n with
  | zero => intro i _; rfl
  | succ n ih =>
    intro i h
    rw [rxScanFrom]
    simp only [h i (Nat.le_refl i) (by omega), Bool.false_eq_true, if_false]
    exact ih (i + 1) (fun j h1 h2 => h j (by omega) (by omega))

/-- A receive scan whose range contains a first guard-passing mailbox i0
acts on exactly that mailbox. -/
theorem rxScanFrom_hit (s : CanState) :
    ∀ n i i0, i ≤ i0 → i0 < i + n → rxCond s i0 = true →
      (∀ j, i ≤ j → j < i0 → rxCond s j = false) →
      rxScanFrom s i n =
        (if s.mbDlc i0 ≤ 8 then
          some (some (rxFrameAt s i0),
            { s with mctl := Function.update s.mctl i0 ⟨false, true, false⟩ })
        else none) := by
  intro n
  induction n with
  | zero => intro i i0 h1 h2 _ _; omega
  | succ n ih =>
    intro i i0 h1 h2 hc hpre
    rcases Nat.eq_or_lt_of_le h1 with heq | hlt
    · subst heq
      by_cases hdlc : s.mbDlc i ≤ 8 <;>
        simp [rxScanFrom, hc, hdlc, rxFrameAt, Function.update_idem]
    · rw [rxScanFrom]
      simp only [hpre i (Nat.le_refl i) hlt, Bool.false_eq_true, if_false]
      exact ih (i + 1) i0 hlt (by omega) hc (fun j hj1 hj2 => hpre j (by omega) hj2)

/-- When every DLC register is at most 8, the receive scan cannot panic. -/
theorem rxScanFrom_isSome (s : CanState) (hdlc : ∀ i, s.mbDlc i ≤ 8) :
    ∀ n i, (rxScanFrom s i n).isSome = true := by
  intro n
  induction n with
  | zero => intro i; rfl
  | succ n ih =>
    intro i
    rw [rxScanFrom]
    by_cases hc : rxCond s i = true
    · simp [hc, hdlc i]
    · simp only [Bool.not_eq_true] at hc
      simp only [hc, Bool.false_eq_true, if_false]
      exact ih (i + 1)

/-- A transmit scan over mailboxes that are all busy reports an error and
performs no register write. -/
theorem txScanFrom_busy (f : Frame) (s : CanState) :
    ∀ n i, (∀ j, i ≤ j → j < i + n → txCond s j = false) →
      txScanFrom f s i n = some (false, s) := by
  intro n
  induction n with
  | zero => intro i _; rfl
  | succ n ih =>
    intro i h
    rw [txScanFrom]
    simp only [h i (Nat.le_refl i) (by omega), Bool.false_eq_true, if_false]
    exact ih (i + 1) (fun j h1 h2 => h j (by omega) (by omega))

/-- A transmit scan whose range contains a first idle mailbox i0 writes the
frame into exactly that mailbox, provided the DLC is within the array. -/
theorem txScanFrom_hit (f : Frame) (s : CanState) :
    ∀ n i i0, i ≤ i0 → i0 < i + n → txCond s i0 = true →
      (∀ j, i ≤ j → j < i0 → txCond s j = false) → f.dlc ≤ f.data.length →
      txScanFrom f s i n = some (true, txFrameWrite s i0 f) := by
  intro n
  induction n with
  | zero => intro i i0 h1 h2 _ _ _; omega
  | succ n ih =>
    intro i i0 h1 h2 hc hpre hdlc
    rcases Nat.eq_or_lt_of_le h1 with heq | hlt
    · subst heq
      simp [txScanFrom, hc, sliceTo, hdlc, txFrameWrite]
    · rw [txScanFrom]
      simp only [hpre i (Nat.le_refl i) hlt, Bool.false_eq_true, if_false]
      exact ih (i + 1) i0 hlt (by omega) hc (fun j hj1 hj2 => hpre j (by omega) hj2) hdlc

/-- Claim C2 (amended): try_receive_frame returns None (and leaves every
register untouched) when no mailbox has its new-data flag set together with
a clear transmit-request bit; otherwise it acts on exactly the lowest-index
mailbox whose new-data flag is set and whose transmit-request bit is clear
and, when the DLC readback of that mailbox is at most 8, clears that
mailbox control register, reads back identifier, length and data, re-arms
the receive-request bit of that mailbox, and returns the decoded frame,
touching no other mailbox and never blocking. -/
theorem c2_try_receive_frame_amended :
    (∀ s : CanState,
      (∀ i, i < 32 → ((s.mctl i).newdata = false ∨ (s.mctl i).trmreq = true)) →
      try_receive_frame s = some (none, s)) ∧
    (∀ (s : CanState) (i0 : Nat), i0 < 32 →
      (s.mctl i0).newdata = true → (s.mctl i0).trmreq = false →
      (∀ j, j < i0 → ((s.mctl j).newdata = false ∨ (s.mctl j).trmreq = true)) →
      s.mbDlc i0 ≤ 8 →
      try_receive_frame s = some (some (rxFrameAt s i0),
        { s with mctl := Function.update s.mctl i0 ⟨false, true, false⟩ })) := by
  constructor
  · intro s h
    exact rxScanFrom_none s 32 0 (fun j _ h2 => (rxCond_false_iff s j).mpr (h j (by omega)))
  · intro s i0 hi0 hnd htr hpre hdlc
    have h := rxScanFrom_hit s 32 0 i0 (Nat.zero_le _) (by omega)
      (by rw [rxCond, hnd, htr]; rfl)
      (fun j _ hj => (rxCond_false_iff s j).mpr (hpre j hj))
    rw [try_receive_frame, h, if_pos hdlc]

/-- Witness for the amended C2: on the concrete armed receive state the
frame in mailbox 0 is returned and mailbox 0 is re-armed. -/
theorem c2_try_receive_frame_amended_witness :
    try_receive_frame rxWitnessState = some (some (rxFrameAt rxWitnessState 0),
      { rxWitnessState with
          mctl := Function.update rxWitnessState.mctl 0 ⟨false, true, false⟩ }) := by
  exact c2_try_receive_frame_amended.2 rxWitnessState 0 (by omega) (by decide) (by decide)
    (fun j hj => absurd hj (by omega)) (by decide)

/-- Counterexample for C2 as stated: in c2CexState, mailbox 0 is the lowest
index with new data set and the receive-request bit clear, yet the code
returns the frame of mailbox 1 (it skips mailbox 0 because its
transmit-request bit is set, and selects on the transmit-request bit, not
the receive-request bit). -/
theorem c2_try_receive_frame_cex :
    (try_receive_frame c2CexState).map Prod.fst = some (some (rxFrameAt c2CexState 1)) ∧
    (c2CexState.mctl 0).newdata = true ∧ (c2CexState.mctl 0).recreq = false ∧
    rxFrameAt c2CexState 1 ≠ rxFrameAt c2CexState 0 := by
  refine ⟨by decide, by decide, by decide, by decide⟩

/-- Claim C3: send_frame scans mailboxes 0..31 in ascending order and uses
the first whose transmit-request and receive-request bits are both clear,
writing the encoded identifier, the DLC and the data bytes into that
mailbox and setting its transmit-request bit, returning Ok and touching no
other mailbox; if all 32 mailboxes are busy it returns an error with no
register writes and without blocking; freeing any one mailbox makes the
next send_frame call succeed. -/
theorem c3_send_frame_spec :
    (∀ (f : Frame) (s : CanState),
      (∀ i, i < 32 → ((s.mctl i).trmreq = true ∨ (s.mctl i).recreq = true)) →
      send_frame f s = some (false, s)) ∧
    (∀ (f : Frame) (s : CanState) (i0 : Nat), i0 < 32 →
      (s.mctl i0).trmreq = false → (s.mctl i0).recreq = false →
      (∀ j, j < i0 → ((s.mctl j).trmreq = true ∨ (s.mctl j).recreq = true)) →
      f.dlc ≤ f.data.length →
      send_frame f s = some (true, txFrameWrite s i0 f)) ∧
    (∀ (f : Frame) (s : CanState) (k : Nat),
      (∀ i, i < 32 → ((s.mctl i).trmreq = true ∨ (s.mctl i).recreq = true)) →
      k < 32 → f.dlc ≤ f.data.length →
      send_frame f { s with mctl := Function.update s.mctl k ⟨false, false, false⟩ }
        = some (true,
          txFrameWrite { s with mctl := Function.update s.mctl k ⟨false, false, false⟩ } k f)) := by
  have h2 : ∀ (f : Frame) (s : CanState) (i0 : Nat), i0 < 32 →
      (s.mctl i0).trmreq = false → (s.mctl i0).recreq = false →
      (∀ j, j < i0 → ((s.mctl j).trmreq = true ∨ (s.mctl j).recreq = true)) →
      f.dlc ≤ f.data.length →
      send_frame f s = some (true, txFrameWrite s i0 f) := by
    intro f s i0 hi0 htr hrr hpre hdlc
    exact txScanFrom_hit f s 32 0 i0 (Nat.zero_le _) (by omega)
      (by rw [txCond, htr, hrr]; rfl)
      (fun j _ hj => (txCond_false_iff s j).mpr (hpre j hj)) hdlc
  refine ⟨?_, h2, ?_⟩
  · intro f s h
    exact txScanFrom_busy f s 32 0 (fun j _ h2 => (txCond_false_iff s j).mpr (h j (by omega)))
  · intro f s k hbusy hk hdlc
    apply h2
    · exact hk
    · show ((Function.update s.mctl k ⟨false, false, false⟩) k).trmreq = false
      rw [Function.update_same]
    · show ((Function.update s.mctl k ⟨false, false, false⟩) k).recreq = false
      rw [Function.update_same]
    · intro j hj
      have hne : j ≠ k := by omega
      show ((Function.update s.mctl k ⟨false, false, false⟩) j).trmreq = true
        ∨ ((Function.update s.mctl k ⟨false, false, false⟩) j).recreq = true
      rw [Function.update_noteq hne]
      exact hbusy j (by omega)
    · exact hdlc

/-- Witness for C3: the 2 byte witness frame is rejected on the all-busy
state with no register writes, and clearing mailbox 5 makes the next call
succeed there. -/
theorem c3_send_frame_spec_witness :
    send_frame witnessFrame txBusyState = some (false, txBusyState) ∧
    send_frame witnessFrame
        { txBusyState with mctl := Function.update txBusyState.mctl 5 ⟨false, false, false⟩ }
      = some (true,
        txFrameWrite
          { txBusyState with mctl := Function.update txBusyState.mctl 5 ⟨false, false, false⟩ }
          5 witnessFrame) := by
  constructor
  · exact c3_send_frame_spec.1 witnessFrame txBusyState (fun i _ => Or.inl rfl)
  · exact c3_send_frame_spec.2.2 witnessFrame txBusyState 5 (fun i _ => Or.inl rfl)
      (by omega) (by decide)

/-- Claim C9: the receive data copy is total for every DLC readback of at
most 8; a readback of 9 or more slices the 8 byte array out of bounds and
panics; and Frame::data slices self.data[..self.dlc] under the same
precondition. -/
theorem c9_dlc_slice_bounds :
    (∀ s : CanState, (∀ i, s.mbDlc i ≤ 8) → (try_receive_frame s).isSome = true) ∧
    (∀ (s : CanState) (i0 : Nat), i0 < 32 → (s.mctl i0).newdata = true →
      (s.mctl i0).trmreq = false →
      (∀ j, j < i0 → ((s.mctl j).newdata = false ∨ (s.mctl j).trmreq = true)) →
      9 ≤ s.mbDlc i0 → try_receive_frame s = none) ∧
    (∀ f : Frame, f.data.length = 8 →
      ((f.dlc ≤ 8 → (Frame.dataBytes f).isSome = true) ∧
        (9 ≤ f.dlc → Frame.dataBytes f = none))) := by
  refine ⟨?_, ?_, ?_⟩
  · intro s hdlc
    exact rxScanFrom_isSome s hdlc 32 0
  · intro s i0 hi0 hnd htr hpre hdlc
    have h := rxScanFrom_hit s 32 0 i0 (Nat.zero_le _) (by omega)
      (by rw [rxCond, hnd, htr]; rfl)
      (fun j _ hj => (rxCond_false_iff s j).mpr (hpre j hj))
    rw [try_receive_frame, h, if_neg (by omega)]
  · intro f hlen
    constructor
    · intro hle
      rw [Frame.dataBytes, sliceTo, if_pos (by omega)]
      rfl
    · intro hgt
      rw [Frame.dataBytes, sliceTo, if_neg (by omega)]

/-- Witness for C9: the receive scan succeeds on the armed state with DLC 2,
panics on the state with DLC readback 9, and Frame::data behaves the same
way on the two concrete frames. -/
theorem c9_dlc_slice_bounds_witness :
    (try_receive_frame rxWitnessState).isSome = true ∧
    try_receive_frame rxBadDlcState = none ∧
    (Frame.dataBytes witnessFrame).isSome = true ∧
    Frame.dataBytes badDlcFrame = none := by
  refine ⟨?_, ?_, ?_, ?_⟩
  · exact c9_dlc_slice_bounds.1 rxWitnessState (fun i => by
      show (if i = 0 then 2 else 0) ≤ 8
      split <;> omega)
  · exact c9_dlc_slice_bounds.2.1 rxBadDlcState 0 (by omega) (by decide) (by decide)
      (fun j hj => absurd hj (by omega)) (by decide)
  · exact ((c9_dlc_slice_bounds.2.2 witnessFrame (by decide)).1 (by decide))
  · exact ((c9_dlc_slice_bounds.2.2 badDlcFrame (by decide)).2 (by decide))

/-! ### The UART TX path (C7, C8) -/

/-- Claim C7: the TX-empty handler clears its own pending flag; if the TX
ring buffer holds at least one byte it writes that byte to the
transmit-data register and advances the buffer, and if the buffer thereby
became empty it switches the armed interrupts from data-empty to
transmission-complete (TIE cleared, TEIE set, TE untouched); if the buffer
was already empty when the interrupt fired it disables the transmitter and
both TX interrupt enables instead of propagating an error. -/
theorem c7_txi_handler_spec (s : UartState) :
    ((txiHandler s).pending = false) ∧
    (∀ b rest, s.txBuf = b :: rest →
      (txiHandler s).tdr = b ∧ (txiHandler s).txBuf = rest) ∧
    (∀ b, s.txBuf = [b] →
      (txiHandler s).scr = ⟨s.scr.te, false, true⟩) ∧
    (s.txBuf = [] →
      (txiHandler s).scr = ⟨false, false, false⟩ ∧
      (txiHandler s).txBuf = s.txBuf ∧ (txiHandler s).tdr = s.tdr) := by
  rcases hbuf : s.txBuf with _ | ⟨b, rest⟩
  · refine ⟨?_, ?_, ?_, ?_⟩ <;> simp [txiHandler, hbuf]
  · rcases rest with _ | ⟨c, rest2⟩ <;>
      refine ⟨?_, ?_, ?_, ?_⟩ <;> simp [txiHandler, hbuf]

/-- Witness for C7 on the concrete one-byte pending state. -/
theorem c7_txi_handler_spec_witness :
    (txiHandler c7State).pending = false ∧
    (txiHandler c7State).tdr = 9 ∧ (txiHandler c7State).txBuf = [] ∧
    (txiHandler c7State).scr = ⟨true, false, true⟩ := by
  refine ⟨(c7_txi_handler_spec c7State).1,
    ((c7_txi_handler_spec c7State).2.1 9 [] rfl).1,
    ((c7_txi_handler_spec c7State).2.1 9 [] rfl).2,
    (c7_txi_handler_spec c7State).2.2.1 9 rfl⟩

/-- Claim C8 (amended): every call to UartTx::write that returns yields
Ok(n) with n the number of bytes copied into the TX ring buffer, at most
the input length, and n is never zero unless the input slice itself is
empty or the ring buffer had zero free space at the time of the call; for
a nonempty input every return (including any return after blocking on a
full buffer) queues at least one byte; with the transmitter idle and free
space available the call immediately copies min(space, length) bytes and
arms the transmitter; while the interference never provides free space the
call does not return. -/
theorem c8_write_amended :
    (∀ (env : Nat → UartState → UartState) (input : List Nat) (fuel k : Nat)
        (s : UartState) (n : Nat) (s2 : UartState),
      UartTx.write env input fuel k s = some (n, s2) →
      n ≤ input.length ∧ (input ≠ [] → 1 ≤ n)) ∧
    (∀ (env : Nat → UartState → UartState) (input : List Nat) (fuel k : Nat)
        (s : UartState), s.scr.te = false → s.freeSpace ≠ 0 →
      UartTx.write env input (fuel + 1) k s
        = some (min s.freeSpace input.length,
            armTx { s with txBuf := s.txBuf ++ input.take (min s.freeSpace input.length) })) ∧
    (∀ (env : Nat → UartState → UartState) (input : List Nat) (fuel k : Nat)
        (s : UartState), s.freeSpace = 0 → (∀ j t, (env j t).freeSpace = 0) →
      UartTx.write env input fuel k s = none) := by
  refine ⟨?_, ?_, ?_⟩
  · intro env input fuel
    induction fuel with
    | zero =>
      intro k s n s2 h
      simp [UartTx.write] at h
    | succ fuel ih =>
      intro k s n s2 h
      rw [UartTx.write] at h
      by_cases hfree : s.freeSpace ≠ 0
      · rw [if_pos hfree] at h
        dsimp only at h
        have hn : n = min s.freeSpace input.length := by
          split at h
          · cases h; rfl
          · split at h
            · split at h
              · cases h; rfl
              · cases h
            · cases h; rfl
        refine ⟨by omega, fun hne => ?_⟩
        have hlen : 0 < input.length := List.length_pos.mpr hne
        omega
      · rw [if_neg hfree] at h
        exact ih (k + 1) (env k (if s.scr.te = false then armTx s else s)) n s2 h
  · intro env input fuel k s hte hfree
    rw [UartTx.write, if_pos hfree]
    simp [hte]
  · intro env input fuel
    induction fuel with
    | zero => intro k s _ _; rfl
    | succ fuel ih =>
      intro k s hfree henv
      rw [UartTx.write, if_neg (not_not_intro hfree)]
      exact ih (k + 1) (env k (if s.scr.te = false then armTx s else s)) (henv k _) henv

/-- Witness for the amended C8: writing one byte to the idle empty-buffer
state queues it and arms the transmitter. -/
theorem c8_write_amended_witness :
    UartTx.write c8Env [7] 1 0 c8State = some (1, armTx { c8State with txBuf := [7] }) := by
  exact c8_write_amended.2.1 c8Env [7] 0 0 c8State rfl (by decide)

/-- Counterexample for C8 as stated: a write of the empty slice returns
Ok(0) although the TX ring buffer had nonzero free space. -/
theorem c8_write_cex :
    UartTx.write c8Env [] 1 0 c8State = some (0, armTx c8State) ∧
    c8State.freeSpace ≠ 0 := by
  exact ⟨by decide, by decide⟩

end UnoR4
